import Mathlib

/-!
# Fuzzer rules of `pkg/apis/apps/fuzzer/fuzzer.go`

A shallow embedding of the rule table `Funcs` and of the collaborators its rules call
(`randfill.Continue`, `legacyscheme.Scheme.Default`, `intstr`, `fmt.Sprintf`), followed by the
properties of the rules.

Conventions of the embedding:

* a rule `func(x *T, c randfill.Continue)` mutates `x` in place and consumes randomness; here it
  is a function from the instance and the state of the randomness source to the new instance and
  the new state;
* a pointer `*T` is `Option T` (`nil` is `none`), `int32` is `Int`, `[]byte` is `List Nat`;
* a run-time panic (index out of range, `Intn` with a non-positive bound) is `none`.
-/

namespace AppsFuzzer

/-! ## Data model -/

/-- Modelled from the spec: `intstr.Type` (apimachinery `pkg/util/intstr`, not among the sources),
the tag saying which of the two representations an `IntOrString` carries. `Int` is the zero
value. -/
inductive IntstrType where
  | Int
  | String
  deriving DecidableEq

/-- Modelled from the spec: `intstr.IntOrString` (not among the sources), the union-style field
holding either an exact count or a percentage string. The field defaults are Go's zero value. -/
structure IntOrString where
  Type_ : IntstrType := IntstrType.Int
  IntVal : Int := 0
  StrVal : String := ""
  deriving DecidableEq

/-- Modelled from the spec: `intstr.FromInt32` (not among the sources), the integer-count
representation of `val`. -/
def FromInt32 (val : Int) : IntOrString :=
  { Type_ := IntstrType.Int, IntVal := val }

/-- Modelled from the spec: `intstr.FromString` (not among the sources), the string
representation `val`. -/
def FromString (val : String) : IntOrString :=
  { Type_ := IntstrType.String, StrVal := val }

/-- Modelled from the spec: `fmt.Sprintf("%d%%", n)` for an `int32` argument (Go's standard
library, not among the sources): the decimal integer, with a leading `-` when negative,
immediately followed by a `%` sign. -/
def Sprintf_d_pct (n : Int) : String :=
  (match n with
   | Int.ofNat m => Nat.repr m
   | Int.negSucc m => "-" ++ Nat.repr (m + 1)) ++ "%"

/-- Modelled from the spec: `apps.DeploymentStrategyType` is a string type declared in
`pkg/apis/apps/types.go` (not among the sources). -/
abbrev DeploymentStrategyType := String

/-- Modelled from the spec: the constant `apps.RecreateDeploymentStrategyType` (declared in
`pkg/apis/apps/types.go`, not among the sources). -/
def RecreateDeploymentStrategyType : DeploymentStrategyType := "Recreate"

/-- Modelled from the spec: the constant `apps.RollingUpdateDeploymentStrategyType` (declared in
`pkg/apis/apps/types.go`, not among the sources). -/
def RollingUpdateDeploymentStrategyType : DeploymentStrategyType := "RollingUpdate"

/-- Modelled from the spec: `apps.DaemonSetUpdateStrategyType` is a string type declared in
`pkg/apis/apps/types.go` (not among the sources). -/
abbrev DaemonSetUpdateStrategyType := String

/-- Modelled from the spec: the constant `apps.RollingUpdateDaemonSetStrategyType` (declared in
`pkg/apis/apps/types.go`, not among the sources). -/
def RollingUpdateDaemonSetStrategyType : DaemonSetUpdateStrategyType := "RollingUpdate"

/-- Modelled from the spec: the constant `apps.OnDeleteDaemonSetStrategyType` (declared in
`pkg/apis/apps/types.go`, not among the sources). -/
def OnDeleteDaemonSetStrategyType : DaemonSetUpdateStrategyType := "OnDelete"

/-- Modelled from the spec: `apps.RollingUpdateDeployment` (declared in `pkg/apis/apps/types.go`,
not among the sources), the rolling-update sub-object with its surge/unavailable fields. -/
structure RollingUpdateDeployment where
  MaxUnavailable : IntOrString := {}
  MaxSurge : IntOrString := {}
  deriving DecidableEq

/-- Modelled from the spec: `apps.DeploymentStrategy` (declared in `pkg/apis/apps/types.go`, not
among the sources): strategy type plus optional rolling-update sub-object. -/
structure DeploymentStrategy where
  Type_ : DeploymentStrategyType
  RollingUpdate : Option RollingUpdateDeployment
  deriving DecidableEq

/-- Modelled from the spec: `apps.RollingUpdateDaemonSet` (declared in `pkg/apis/apps/types.go`,
not among the sources). -/
structure RollingUpdateDaemonSet where
  MaxUnavailable : IntOrString := {}
  MaxSurge : IntOrString := {}
  deriving DecidableEq

/-- Modelled from the spec: `apps.DaemonSetUpdateStrategy` (declared in `pkg/apis/apps/types.go`,
not among the sources). -/
structure DaemonSetUpdateStrategy where
  Type_ : DaemonSetUpdateStrategyType
  RollingUpdate : Option RollingUpdateDaemonSet
  deriving DecidableEq

/-- Modelled from the spec: `apps.DeploymentSpec` (declared in `pkg/apis/apps/types.go`, not among
the sources). The two optional integers the rule repairs are explicit; `other` stands for all the
remaining fields, of a type `ρ` the rule never inspects. -/
structure DeploymentSpec (ρ : Type) where
  RevisionHistoryLimit : Option Int
  ProgressDeadlineSeconds : Option Int
  other : ρ
  deriving DecidableEq

/-- Modelled from the spec: `apps.DaemonSetSpec` (declared in `pkg/apis/apps/types.go`, not among
the sources); `other` stands for all the fields but `RevisionHistoryLimit`. -/
structure DaemonSetSpec (ρ : Type) where
  RevisionHistoryLimit : Option Int
  other : ρ
  deriving DecidableEq

/-- Modelled from the spec: `runtime.RawExtension` (apimachinery, not among the sources): the raw
bytes and the optional decoded object, of a type `ω` the rules never inspect. The field defaults
are Go's zero value. -/
structure RawExtension (ω : Type) where
  Raw : List Nat := []
  Object : Option ω := none
  deriving DecidableEq

/-- Modelled from the spec: `apps.ControllerRevision` (declared in `pkg/apis/apps/types.go`, not
among the sources); `other` stands for all the fields but `Data`. -/
structure ControllerRevision (ρ ω : Type) where
  Data : RawExtension ω
  other : ρ
  deriving DecidableEq

/-- The types the rules treat as black boxes: the state of the randomness source, the four
top-level resources without a field override, `runtime.Object`, and the remaining fields of the
three structures above. -/
structure Kinds where
  Source : Type
  Object : Type
  ControllerRevisionRest : Type
  StatefulSet : Type
  Deployment : Type
  DeploymentSpecRest : Type
  DaemonSet : Type
  DaemonSetSpecRest : Type
  ReplicaSet : Type

/-- The controller revision type over the black-box types of `K`. -/
abbrev Kinds.ControllerRevision (K : Kinds) : Type :=
  AppsFuzzer.ControllerRevision K.ControllerRevisionRest K.Object

/-- The deployment spec type over the black-box types of `K`. -/
abbrev Kinds.DeploymentSpec (K : Kinds) : Type :=
  AppsFuzzer.DeploymentSpec K.DeploymentSpecRest

/-- The daemon set spec type over the black-box types of `K`. -/
abbrev Kinds.DaemonSetSpec (K : Kinds) : Type :=
  AppsFuzzer.DaemonSetSpec K.DaemonSetSpecRest

/-! ## Collaborators -/

/-- The operations of `randfill.Continue` the rules use. `Int31`, `Intn` and `Bool` draw from
the randomness source, and `Fill*` is `c.FillNoCustom` at each type a rule is registered for
(the generic filler); every operation returns the advanced state of the source. -/
structure Continue (K : Kinds) where
  Int31 : K.Source → Int × K.Source
  Intn : Int → K.Source → Int × K.Source
  Bool : K.Source → Bool × K.Source
  FillControllerRevision : K.ControllerRevision → K.Source → K.ControllerRevision × K.Source
  FillStatefulSet : K.StatefulSet → K.Source → K.StatefulSet × K.Source
  FillDeployment : K.Deployment → K.Source → K.Deployment × K.Source
  FillDeploymentSpec : K.DeploymentSpec → K.Source → K.DeploymentSpec × K.Source
  FillDeploymentStrategy : DeploymentStrategy → K.Source → DeploymentStrategy × K.Source
  FillDaemonSet : K.DaemonSet → K.Source → K.DaemonSet × K.Source
  FillDaemonSetSpec : K.DaemonSetSpec → K.Source → K.DaemonSetSpec × K.Source
  FillDaemonSetUpdateStrategy :
    DaemonSetUpdateStrategy → K.Source → DaemonSetUpdateStrategy × K.Source
  FillReplicaSet : K.ReplicaSet → K.Source → K.ReplicaSet × K.Source

/-- The defaulting routine `legacyscheme.Scheme.Default`, at each top-level type it is called
for. -/
structure Scheme (K : Kinds) where
  DefaultControllerRevision : K.ControllerRevision → K.ControllerRevision
  DefaultStatefulSet : K.StatefulSet → K.StatefulSet
  DefaultDeployment : K.Deployment → K.Deployment
  DefaultDaemonSet : K.DaemonSet → K.DaemonSet
  DefaultReplicaSet : K.ReplicaSet → K.ReplicaSet

variable {K : Kinds}

/-- The call `c.Rand.Intn(n)`: `math/rand` panics when `n ≤ 0`, otherwise the source draws. -/
def Continue.RandIntn (c : Continue K) (n : Int) (s : K.Source) : Option (Int × K.Source) :=
  if n ≤ 0 then none else some (c.Intn n s)

/-- The contract of `math/rand`: `Intn(n)` returns a value in `[0, n)` for `n > 0`. -/
def Continue.IntnInRange (c : Continue K) : Prop :=
  ∀ (n : Int) (s : K.Source), 0 < n → 0 ≤ (c.Intn n s).1 ∧ (c.Intn n s).1 < n

/-- The slice index expression `xs[i]`: a panic (`none`) when `i` is out of range. -/
def index {α : Type} (xs : List α) (i : Int) : Option α :=
  if 0 ≤ i ∧ i < (xs.length : Int) then xs[i.toNat]? else none

/-- The conversion `[]byte(s)` of a string: its UTF-8 bytes. -/
def bytes (s : String) : List Nat :=
  s.toList.flatMap (fun ch => (String.utf8EncodeChar ch).map UInt8.toNat)

/-! ## The source: `fuzzer.go` -/

/-- The helper `int32Ptr`: a pointer to an `int32` value. -/
def int32Ptr (i : Int) : Option Int := some i

/-- Valid deployment strategy types used in fuzzing. -/
def deploymentStrategyTypes : List DeploymentStrategyType :=
  [RecreateDeploymentStrategyType, RollingUpdateDeploymentStrategyType]

/-- Valid daemon set update strategy types used in fuzzing. -/
def daemonSetUpdateStrategyTypes : List DaemonSetUpdateStrategyType :=
  [RollingUpdateDaemonSetStrategyType, OnDeleteDaemonSetStrategyType]

/-- The text of the raw string literal assigned to `ControllerRevision.Data.Raw`. -/
def controllerRevisionRaw : String :=
  "\x7b\"apiVersion\":\"unknown.group/unknown\",\"kind\":\"Something\"," ++
    "\"someKey\":\"someValue\"\x7d"

/-- The rule `func(r *apps.ControllerRevision, c randfill.Continue)`. -/
def fuzzControllerRevision (sch : Scheme K) (c : Continue K) (r : K.ControllerRevision)
    (s : K.Source) : K.ControllerRevision × K.Source :=
  let filled := c.FillControllerRevision r s
  let r := filled.1
  let r := { r with Data := { Raw := bytes controllerRevisionRaw } }
  (sch.DefaultControllerRevision r, filled.2)

/-- The rule `func(s *apps.StatefulSet, c randfill.Continue)`. -/
def fuzzStatefulSet (sch : Scheme K) (c : Continue K) (x : K.StatefulSet) (s : K.Source) :
    K.StatefulSet × K.Source :=
  let filled := c.FillStatefulSet x s
  (sch.DefaultStatefulSet filled.1, filled.2)

/-- The rule `func(d *apps.Deployment, c randfill.Continue)`. -/
def fuzzDeployment (sch : Scheme K) (c : Continue K) (d : K.Deployment) (s : K.Source) :
    K.Deployment × K.Source :=
  let filled := c.FillDeployment d s
  (sch.DefaultDeployment filled.1, filled.2)

/-- The rule `func(spec *apps.DeploymentSpec, c randfill.Continue)`. -/
def fuzzDeploymentSpec (c : Continue K) (spec : K.DeploymentSpec) (s : K.Source) :
    K.DeploymentSpec × K.Source :=
  let filled := c.FillDeploymentSpec spec s
  let spec := filled.1
  let s := filled.2
  let step1 : K.DeploymentSpec × K.Source :=
    if spec.RevisionHistoryLimit = none then
      let draw := c.Int31 s
      ({ spec with RevisionHistoryLimit := int32Ptr draw.1 }, draw.2)
    else (spec, s)
  let spec := step1.1
  let s := step1.2
  if spec.ProgressDeadlineSeconds = none then
    let draw := c.Int31 s
    ({ spec with ProgressDeadlineSeconds := int32Ptr draw.1 }, draw.2)
  else (spec, s)

/-- The rule `func(strategy *apps.DeploymentStrategy, c randfill.Continue)`. -/
def fuzzDeploymentStrategy (c : Continue K) (strategy : DeploymentStrategy) (s : K.Source) :
    Option (DeploymentStrategy × K.Source) :=
  let filled := c.FillDeploymentStrategy strategy s
  let strategy := filled.1
  match c.RandIntn (deploymentStrategyTypes.length : Int) filled.2 with
  | none => none
  | some pick =>
    match index deploymentStrategyTypes pick.1 with
    | none => none
    | some t =>
      let strategy := { strategy with Type_ := t }
      if strategy.Type_ = RollingUpdateDeploymentStrategyType then
        let rolling : RollingUpdateDeployment := {}
        let coin := c.Bool pick.2
        if coin.1 then
          let first := c.Int31 coin.2
          let rolling := { rolling with MaxUnavailable := FromInt32 first.1 }
          let second := c.Int31 first.2
          let rolling := { rolling with MaxSurge := FromInt32 second.1 }
          some ({ strategy with RollingUpdate := some rolling }, second.2)
        else
          let draw := c.Int31 coin.2
          let rolling := { rolling with MaxSurge := FromString (Sprintf_d_pct draw.1) }
          some ({ strategy with RollingUpdate := some rolling }, draw.2)
      else
        some ({ strategy with RollingUpdate := none }, pick.2)

/-- The rule `func(ds *apps.DaemonSet, c randfill.Continue)`. -/
def fuzzDaemonSet (sch : Scheme K) (c : Continue K) (ds : K.DaemonSet) (s : K.Source) :
    K.DaemonSet × K.Source :=
  let filled := c.FillDaemonSet ds s
  (sch.DefaultDaemonSet filled.1, filled.2)

/-- The rule `func(spec *apps.DaemonSetSpec, c randfill.Continue)`. -/
def fuzzDaemonSetSpec (c : Continue K) (spec : K.DaemonSetSpec) (s : K.Source) :
    K.DaemonSetSpec × K.Source :=
  let filled := c.FillDaemonSetSpec spec s
  let spec := filled.1
  let s := filled.2
  if spec.RevisionHistoryLimit = none then
    let draw := c.Int31 s
    ({ spec with RevisionHistoryLimit := int32Ptr draw.1 }, draw.2)
  else (spec, s)

/-- The rule `func(strategy *apps.DaemonSetUpdateStrategy, c randfill.Continue)`. -/
def fuzzDaemonSetUpdateStrategy (c : Continue K) (strategy : DaemonSetUpdateStrategy)
    (s : K.Source) : Option (DaemonSetUpdateStrategy × K.Source) :=
  let filled := c.FillDaemonSetUpdateStrategy strategy s
  let strategy := filled.1
  match c.RandIntn (daemonSetUpdateStrategyTypes.length : Int) filled.2 with
  | none => none
  | some pick =>
    match index daemonSetUpdateStrategyTypes pick.1 with
    | none => none
    | some t =>
      let strategy := { strategy with Type_ := t }
      if strategy.Type_ = RollingUpdateDaemonSetStrategyType then
        let rolling : RollingUpdateDaemonSet := {}
        let outer := c.Bool pick.2
        if outer.1 then
          let coin := c.Bool outer.2
          if coin.1 then
            let first := c.Int31 coin.2
            let rolling := { rolling with MaxUnavailable := FromInt32 first.1 }
            let second := c.Int31 first.2
            let rolling := { rolling with MaxSurge := FromInt32 second.1 }
            some ({ strategy with RollingUpdate := some rolling }, second.2)
          else
            let draw := c.Int31 coin.2
            let rolling := { rolling with MaxSurge := FromString (Sprintf_d_pct draw.1) }
            some ({ strategy with RollingUpdate := some rolling }, draw.2)
        else
          some ({ strategy with RollingUpdate := some rolling }, outer.2)
      else
        some ({ strategy with RollingUpdate := none }, pick.2)

/-- The rule `func(rs *apps.ReplicaSet, c randfill.Continue)`. -/
def fuzzReplicaSet (sch : Scheme K) (c : Continue K) (rs : K.ReplicaSet) (s : K.Source) :
    K.ReplicaSet × K.Source :=
  let filled := c.FillReplicaSet rs s
  (sch.DefaultReplicaSet filled.1, filled.2)

/-- The rule table returned by `Funcs`, one entry per registered type. -/
structure RuleTable (K : Kinds) where
  ControllerRevision :
    Continue K → K.ControllerRevision → K.Source → K.ControllerRevision × K.Source
  StatefulSet : Continue K → K.StatefulSet → K.Source → K.StatefulSet × K.Source
  Deployment : Continue K → K.Deployment → K.Source → K.Deployment × K.Source
  DeploymentSpec : Continue K → K.DeploymentSpec → K.Source → K.DeploymentSpec × K.Source
  DeploymentStrategy :
    Continue K → DeploymentStrategy → K.Source → Option (DeploymentStrategy × K.Source)
  DaemonSet : Continue K → K.DaemonSet → K.Source → K.DaemonSet × K.Source
  DaemonSetSpec : Continue K → K.DaemonSetSpec → K.Source → K.DaemonSetSpec × K.Source
  DaemonSetUpdateStrategy :
    Continue K → DaemonSetUpdateStrategy → K.Source →
      Option (DaemonSetUpdateStrategy × K.Source)
  ReplicaSet : Continue K → K.ReplicaSet → K.Source → K.ReplicaSet × K.Source

/-- The table `Funcs`. Its rules close over the package-level `legacyscheme.Scheme`, which is the
parameter `sch` here; the argument `codecs` of the source is unused there and left out. -/
def Funcs (sch : Scheme K) : RuleTable K where
  ControllerRevision := fuzzControllerRevision sch
  StatefulSet := fuzzStatefulSet sch
  Deployment := fuzzDeployment sch
  DeploymentSpec := fuzzDeploymentSpec
  DeploymentStrategy := fuzzDeploymentStrategy
  DaemonSet := fuzzDaemonSet sch
  DaemonSetSpec := fuzzDaemonSetSpec
  DaemonSetUpdateStrategy := fuzzDaemonSetUpdateStrategy
  ReplicaSet := fuzzReplicaSet sch

/-! ## A concrete harness, used to run the rules on explicit inputs -/

/-- Black-box types for the examples: the source is a finite tape of raw draws, every other
black box is a natural number. -/
abbrev demoKinds : Kinds where
  Source := List Nat
  Object := Nat
  ControllerRevisionRest := Nat
  StatefulSet := Nat
  Deployment := Nat
  DeploymentSpecRest := Nat
  DaemonSet := Nat
  DaemonSetSpecRest := Nat
  ReplicaSet := Nat

/-- A randomness source reading from the tape: each draw consumes the head (0 on an exhausted
tape); `Int31` reduces it modulo `2^31`, `Intn n` modulo `n`, `Bool` tests it for being odd. The
generic filler leaves the instance as it is, but for the top-level resources, which it replaces
by a value from the tape. -/
def demoContinue : Continue demoKinds where
  Int31 := fun s => (((s.headD 0 % 2147483648 : Nat) : Int), s.tail)
  Intn := fun n s => (((s.headD 0 : Nat) : Int) % n, s.tail)
  Bool := fun s => (s.headD 0 % 2 == 1, s.tail)
  FillControllerRevision := fun r s => (r, s)
  FillStatefulSet := fun _ s => (s.headD 0, s.tail)
  FillDeployment := fun _ s => (s.headD 0, s.tail)
  FillDeploymentSpec := fun spec s => (spec, s)
  FillDeploymentStrategy := fun strategy s => (strategy, s)
  FillDaemonSet := fun _ s => (s.headD 0, s.tail)
  FillDaemonSetSpec := fun spec s => (spec, s)
  FillDaemonSetUpdateStrategy := fun strategy s => (strategy, s)
  FillReplicaSet := fun _ s => (s.headD 0, s.tail)

/-- A source outside the contract of `math/rand`: its `Intn` returns the head of the tape as it
is, whatever the bound. Used only to show that the panic of the embedding can be reached. -/
def rawContinue : Continue demoKinds :=
  { demoContinue with Intn := fun _ s => (((s.headD 0 : Nat) : Int), s.tail) }

/-- A defaulting routine for the examples: it leaves a controller revision alone and adds one to
the other top-level resources. -/
def demoScheme : Scheme demoKinds where
  DefaultControllerRevision := fun r => r
  DefaultStatefulSet := fun x => Nat.succ x
  DefaultDeployment := fun x => Nat.succ x
  DefaultDaemonSet := fun x => Nat.succ x
  DefaultReplicaSet := fun x => Nat.succ x

/-! ## Reading a decimal numeral -/

/-- The number a list of decimal digit characters denotes, most significant digit first. -/
def decimalValue (ds : List Char) : Nat :=
  ds.foldl (fun acc ch => 10 * acc + (ch.toNat - 48)) 0

/-- The decimal digits of `n`, most significant first, by plain recursion on `n / 10`; the
reference against which the digit loop of `Nat.repr` is checked. -/
def decimal (n : Nat) : List Char :=
  if _h : n / 10 = 0 then [Nat.digitChar (n % 10)]
  else decimal (n / 10) ++ [Nat.digitChar (n % 10)]
decreasing_by omega

/-- The pattern `<digits>%` of the spec, for the number `n`: the characters are a non-empty run
of decimal digits that reads as `n`, with no leading zero unless it is the single digit `0`,
followed by exactly one `%`. -/
def IsPercentOf (n : Nat) (str : String) : Prop :=
  ∃ ds : List Char, str.toList = ds ++ ['%'] ∧ ds ≠ [] ∧ (∀ ch ∈ ds, ch.isDigit = true) ∧
    decimalValue ds = n ∧ (ds.head? = some '0' → ds = ['0'])

/-- A union-style field carries exactly one of its two representations: tagged as an integer
count with an empty string value, or tagged as a string with a zero integer value, and not
both. -/
def CarriesExactlyOne (x : IntOrString) : Prop :=
  ((x.Type_ = IntstrType.Int ∧ x.StrVal = "") ∨ (x.Type_ = IntstrType.String ∧ x.IntVal = 0)) ∧
    ¬ ((x.Type_ = IntstrType.Int ∧ x.StrVal = "") ∧ (x.Type_ = IntstrType.String ∧ x.IntVal = 0))

/-! ## Lemmas on the decimal numeral -/

theorem digitChar_isDigit (d : Nat) (h : d < 10) : (Nat.digitChar d).isDigit = true := by
  interval_cases d <;> decide

theorem digitChar_toNat (d : Nat) (h : d < 10) : (Nat.digitChar d).toNat - 48 = d := by
  interval_cases d <;> decide

theorem digitChar_ne_zero (d : Nat) (h : d < 10) (hd : d ≠ 0) : Nat.digitChar d ≠ '0' := by
  interval_cases d <;> first | exact absurd rfl hd | decide

theorem toDigitsCore_eq_decimal (fuel : Nat) : ∀ (n : Nat) (ds : List Char), n < fuel →
    Nat.toDigitsCore 10 fuel n ds = decimal n ++ ds := by
  induction fuel with
  | zero => intro n ds h; omega
  | succ fuel ih =>
    intro n ds h
    rw [decimal]
    simp only [Nat.toDigitsCore]
    split
    · simp
    · rw [ih (n / 10) _ (by omega)]
      simp

theorem repr_toList (n : Nat) : (Nat.repr n).toList = decimal n := by
  have h := toDigitsCore_eq_decimal (n + 1) n [] (Nat.lt_succ_self n)
  rw [List.append_nil] at h
  show (Nat.toDigitsCore 10 (n + 1) n []) = decimal n
  exact h

theorem decimal_ne_nil (n : Nat) : decimal n ≠ [] := by
  rw [decimal]; split <;> simp

theorem decimal_isDigit (n : Nat) : ∀ ch ∈ decimal n, ch.isDigit = true := by
  induction n using Nat.strong_induction_on with
  | _ n ih =>
    rw [decimal]
    split
    · intro ch hch
      simp at hch
      subst hch
      exact digitChar_isDigit _ (Nat.mod_lt _ (by decide))
    · intro ch hch
      simp only [List.mem_append, List.mem_singleton] at hch
      rcases hch with hch | hch
      · exact ih (n / 10) (by omega) ch hch
      · subst hch
        exact digitChar_isDigit _ (Nat.mod_lt _ (by decide))

theorem decimalValue_append (ds : List Char) (ch : Char) :
    decimalValue (ds ++ [ch]) = 10 * decimalValue ds + (ch.toNat - 48) := by
  simp [decimalValue, List.foldl_append]

theorem decimalValue_decimal (n : Nat) : decimalValue (decimal n) = n := by
  induction n using Nat.strong_induction_on with
  | _ n ih =>
    rw [decimal]
    split
    · rename_i h
      have : n < 10 := by omega
      simp [decimalValue, digitChar_toNat _ (Nat.mod_lt n (by decide : 0 < 10))]
      omega
    · rw [decimalValue_append, ih (n / 10) (by omega),
        digitChar_toNat _ (Nat.mod_lt n (by decide : 0 < 10))]
      omega

theorem decimal_head_ne_zero (n : Nat) (hn : 0 < n) : (decimal n).head? ≠ some '0' := by
  induction n using Nat.strong_induction_on with
  | _ n ih =>
    rw [decimal]
    split
    · rename_i h
      have h10 : n % 10 = n := by omega
      simp only [List.head?_cons, ne_eq, Option.some.injEq]
      exact digitChar_ne_zero _ (Nat.mod_lt n (by decide)) (by omega)
    · rename_i h
      have hne := decimal_ne_nil (n / 10)
      have := ih (n / 10) (by omega) (by omega)
      cases hd : decimal (n / 10) with
      | nil => exact absurd hd hne
      | cons a l => rw [hd] at this; simpa using this

theorem decimal_zero : decimal 0 = ['0'] := by
  rw [decimal]; rfl

/-- For a non-negative `int32`, `fmt.Sprintf("%d%%", n)` is the decimal numeral of `n` followed
by a single `%`. -/
theorem Sprintf_d_pct_isPercentOf (n : Int) (hn : 0 ≤ n) :
    IsPercentOf n.toNat (Sprintf_d_pct n) := by
  obtain ⟨m, rfl⟩ := Int.eq_ofNat_of_zero_le hn
  refine ⟨decimal m, ?_, decimal_ne_nil m, decimal_isDigit m, ?_, ?_⟩
  · show (Nat.repr m ++ "%").toList = decimal m ++ ['%']
    rw [String.toList, String.data_append, ← String.toList, repr_toList]
  · simpa using decimalValue_decimal m
  · intro h
    rcases Nat.eq_zero_or_pos m with h0 | h0
    · subst h0; exact decimal_zero
    · exact absurd h (decimal_head_ne_zero m h0)

/-! ## Lemmas on the two strategy rules -/

theorem index_deploymentStrategyTypes (i : Int) :
    index deploymentStrategyTypes i =
      if i = 0 then some RecreateDeploymentStrategyType
      else if i = 1 then some RollingUpdateDeploymentStrategyType else none := by
  unfold index deploymentStrategyTypes
  by_cases h0 : i = 0
  · subst h0; simp
  · by_cases h1 : i = 1
    · subst h1; simp
    · have : ¬ (0 ≤ i ∧ i < (([RecreateDeploymentStrategyType,
          RollingUpdateDeploymentStrategyType] : List DeploymentStrategyType).length : Int)) := by
        simp only [List.length_cons, List.length_nil]; omega
      rw [if_neg this, if_neg h0, if_neg h1]

theorem index_daemonSetUpdateStrategyTypes (i : Int) :
    index daemonSetUpdateStrategyTypes i =
      if i = 0 then some RollingUpdateDaemonSetStrategyType
      else if i = 1 then some OnDeleteDaemonSetStrategyType else none := by
  unfold index daemonSetUpdateStrategyTypes
  by_cases h0 : i = 0
  · subst h0; simp
  · by_cases h1 : i = 1
    · subst h1; simp
    · have : ¬ (0 ≤ i ∧ i < (([RollingUpdateDaemonSetStrategyType,
          OnDeleteDaemonSetStrategyType] : List DaemonSetUpdateStrategyType).length : Int)) := by
        simp only [List.length_cons, List.length_nil]; omega
      rw [if_neg this, if_neg h0, if_neg h1]

theorem recreate_ne_rollingUpdate :
    RecreateDeploymentStrategyType ≠ RollingUpdateDeploymentStrategyType := by decide

theorem onDelete_ne_rollingUpdate :
    OnDeleteDaemonSetStrategyType ≠ RollingUpdateDaemonSetStrategyType := by decide

/-- The deployment strategy rule, by the index drawn for the type and the coin. -/
theorem fuzzDeploymentStrategy_eq (c : Continue K) (strategy : DeploymentStrategy)
    (s : K.Source) :
    fuzzDeploymentStrategy c strategy s =
      if (c.Intn 2 (c.FillDeploymentStrategy strategy s).2).1 = 0 then
        some (⟨RecreateDeploymentStrategyType, none⟩,
          (c.Intn 2 (c.FillDeploymentStrategy strategy s).2).2)
      else if (c.Intn 2 (c.FillDeploymentStrategy strategy s).2).1 = 1 then
        if (c.Bool (c.Intn 2 (c.FillDeploymentStrategy strategy s).2).2).1 = true then
          some (⟨RollingUpdateDeploymentStrategyType, some
              ⟨FromInt32 (c.Int31 (c.Bool (c.Intn 2
                  (c.FillDeploymentStrategy strategy s).2).2).2).1,
                FromInt32 (c.Int31 (c.Int31 (c.Bool (c.Intn 2
                  (c.FillDeploymentStrategy strategy s).2).2).2).2).1⟩⟩,
            (c.Int31 (c.Int31 (c.Bool (c.Intn 2
              (c.FillDeploymentStrategy strategy s).2).2).2).2).2)
        else
          some (⟨RollingUpdateDeploymentStrategyType, some
              ⟨{}, FromString (Sprintf_d_pct (c.Int31 (c.Bool (c.Intn 2
                  (c.FillDeploymentStrategy strategy s).2).2).2).1)⟩⟩,
            (c.Int31 (c.Bool (c.Intn 2 (c.FillDeploymentStrategy strategy s).2).2).2).2)
      else none := by
  have hlen : ((deploymentStrategyTypes.length : Nat) : Int) = 2 := rfl
  simp only [fuzzDeploymentStrategy, Continue.RandIntn, hlen, index_deploymentStrategyTypes]
  generalize c.Intn 2 (c.FillDeploymentStrategy strategy s).2 = pick
  by_cases h0 : pick.1 = 0
  · simp [h0, recreate_ne_rollingUpdate]
  · by_cases h1 : pick.1 = 1
    · simp [h1]
    · simp [h0, h1]

/-- The daemon set update strategy rule, by the index drawn for the type and the two coins. -/
theorem fuzzDaemonSetUpdateStrategy_eq (c : Continue K) (strategy : DaemonSetUpdateStrategy)
    (s : K.Source) :
    fuzzDaemonSetUpdateStrategy c strategy s =
      if (c.Intn 2 (c.FillDaemonSetUpdateStrategy strategy s).2).1 = 0 then
        if (c.Bool (c.Intn 2 (c.FillDaemonSetUpdateStrategy strategy s).2).2).1 = true then
          if (c.Bool (c.Bool (c.Intn 2
              (c.FillDaemonSetUpdateStrategy strategy s).2).2).2).1 = true then
            some (⟨RollingUpdateDaemonSetStrategyType, some
                ⟨FromInt32 (c.Int31 (c.Bool (c.Bool (c.Intn 2
                    (c.FillDaemonSetUpdateStrategy strategy s).2).2).2).2).1,
                  FromInt32 (c.Int31 (c.Int31 (c.Bool (c.Bool (c.Intn 2
                    (c.FillDaemonSetUpdateStrategy strategy s).2).2).2).2).2).1⟩⟩,
              (c.Int31 (c.Int31 (c.Bool (c.Bool (c.Intn 2
                (c.FillDaemonSetUpdateStrategy strategy s).2).2).2).2).2).2)
          else
            some (⟨RollingUpdateDaemonSetStrategyType, some
                ⟨{}, FromString (Sprintf_d_pct (c.Int31 (c.Bool (c.Bool (c.Intn 2
                    (c.FillDaemonSetUpdateStrategy strategy s).2).2).2).2).1)⟩⟩,
              (c.Int31 (c.Bool (c.Bool (c.Intn 2
                (c.FillDaemonSetUpdateStrategy strategy s).2).2).2).2).2)
        else
          some (⟨RollingUpdateDaemonSetStrategyType, some ⟨{}, {}⟩⟩,
            (c.Bool (c.Intn 2 (c.FillDaemonSetUpdateStrategy strategy s).2).2).2)
      else if (c.Intn 2 (c.FillDaemonSetUpdateStrategy strategy s).2).1 = 1 then
        some (⟨OnDeleteDaemonSetStrategyType, none⟩,
          (c.Intn 2 (c.FillDaemonSetUpdateStrategy strategy s).2).2)
      else none := by
  have hlen : ((daemonSetUpdateStrategyTypes.length : Nat) : Int) = 2 := rfl
  simp only [fuzzDaemonSetUpdateStrategy, Continue.RandIntn, hlen,
    index_daemonSetUpdateStrategyTypes]
  generalize c.Intn 2 (c.FillDaemonSetUpdateStrategy strategy s).2 = pick
  by_cases h0 : pick.1 = 0
  · simp [h0]
  · by_cases h1 : pick.1 = 1
    · simp [h1, onDelete_ne_rollingUpdate]
    · simp [h0, h1]

/-- Under the contract of `math/rand`, a draw `Intn(2)` is 0 or 1. -/
theorem intn_two (c : Continue K) (hc : c.IntnInRange) (s : K.Source) :
    (c.Intn 2 s).1 = 0 ∨ (c.Intn 2 s).1 = 1 := by
  have h := hc 2 s (by decide)
  omega

/-- The tape source of the examples meets the contract of `math/rand`. -/
theorem demoContinue_intnInRange : demoContinue.IntnInRange := by
  intro n s hn
  exact ⟨Int.emod_nonneg _ (by omega), Int.emod_lt_of_pos _ hn⟩

/-- Outside the contract of `math/rand` the lookup in the type table can panic: an `Intn(2)`
that returns 2 makes both strategy rules fail. -/
theorem strategy_rules_panic_outside_contract :
    fuzzDeploymentStrategy rawContinue ⟨"junk", none⟩ [2] = none ∧
    fuzzDaemonSetUpdateStrategy rawContinue ⟨"junk", none⟩ [2] = none := by
  constructor <;> decide

/-! ## Properties of the rules -/

/-- C1: whatever the generic filler had put in `Type` and `RollingUpdate`, a result of the
`DeploymentStrategy` rule has `Type` equal to `Recreate` or `RollingUpdate` and a non-nil
`RollingUpdate` exactly when `Type` is `RollingUpdate`; a result of the
`DaemonSetUpdateStrategy` rule has `Type` equal to `RollingUpdate` or `OnDelete` and a non-nil
`RollingUpdate` exactly when `Type` is `RollingUpdate`. This holds of every result, for every
randomness source, and a source that meets the contract of `math/rand` always gives a result. -/
theorem strategy_type_iff_rollingUpdate (c : Continue K) :
    (∀ (strategy : DeploymentStrategy) (s : K.Source),
      (∀ r s', fuzzDeploymentStrategy c strategy s = some (r, s') →
        (r.Type_ = RecreateDeploymentStrategyType ∨
          r.Type_ = RollingUpdateDeploymentStrategyType) ∧
        (r.RollingUpdate ≠ none ↔ r.Type_ = RollingUpdateDeploymentStrategyType)) ∧
      (c.IntnInRange → ∃ r s', fuzzDeploymentStrategy c strategy s = some (r, s'))) ∧
    (∀ (strategy : DaemonSetUpdateStrategy) (s : K.Source),
      (∀ r s', fuzzDaemonSetUpdateStrategy c strategy s = some (r, s') →
        (r.Type_ = RollingUpdateDaemonSetStrategyType ∨
          r.Type_ = OnDeleteDaemonSetStrategyType) ∧
        (r.RollingUpdate ≠ none ↔ r.Type_ = RollingUpdateDaemonSetStrategyType)) ∧
      (c.IntnInRange → ∃ r s', fuzzDaemonSetUpdateStrategy c strategy s = some (r, s'))) := by
  refine ⟨fun strategy s => ⟨?_, ?_⟩, fun strategy s => ⟨?_, ?_⟩⟩
  · intro r s' h
    rw [fuzzDeploymentStrategy_eq] at h
    split_ifs at h <;> simp only [Option.some.injEq, Prod.mk.injEq] at h <;>
      obtain ⟨rfl, -⟩ := h <;> simp [recreate_ne_rollingUpdate]
  · intro hc
    rw [fuzzDeploymentStrategy_eq]
    rcases intn_two c hc (c.FillDeploymentStrategy strategy s).2 with h | h
    · rw [if_pos h]; exact ⟨_, _, rfl⟩
    · have h0 : ¬ (c.Intn 2 (c.FillDeploymentStrategy strategy s).2).1 = 0 := by omega
      rw [if_neg h0, if_pos h]
      split_ifs <;> exact ⟨_, _, rfl⟩
  · intro r s' h
    rw [fuzzDaemonSetUpdateStrategy_eq] at h
    split_ifs at h <;> simp only [Option.some.injEq, Prod.mk.injEq] at h <;>
      obtain ⟨rfl, -⟩ := h <;> simp [onDelete_ne_rollingUpdate]
  · intro hc
    rw [fuzzDaemonSetUpdateStrategy_eq]
    rcases intn_two c hc (c.FillDaemonSetUpdateStrategy strategy s).2 with h | h
    · rw [if_pos h]
      split_ifs <;> exact ⟨_, _, rfl⟩
    · have h0 : ¬ (c.Intn 2 (c.FillDaemonSetUpdateStrategy strategy s).2).1 = 0 := by omega
      rw [if_neg h0, if_pos h]; exact ⟨_, _, rfl⟩

/-- Witness of C1: on the tape `[0]` the deployment rule overrides a filler result with a junk
type and a stray rolling-update object by `Recreate` and nil; on the tape `[0, 0]` the daemon
set rule overrides a junk type and a nil pointer by `RollingUpdate` and a non-nil object. -/
theorem strategy_type_iff_rollingUpdate_witness :
    demoContinue.IntnInRange ∧
    fuzzDeploymentStrategy demoContinue ⟨"junk", some {}⟩ [0] =
      some (⟨"Recreate", none⟩, []) ∧
    fuzzDaemonSetUpdateStrategy demoContinue ⟨"junk", none⟩ [0, 0] =
      some (⟨"RollingUpdate", some {}⟩, []) ∧
    (∃ r s', fuzzDeploymentStrategy demoContinue ⟨"junk", some {}⟩ [0] = some (r, s')) ∧
    ((⟨"Recreate", none⟩ : DeploymentStrategy).RollingUpdate ≠ none ↔
      (⟨"Recreate", none⟩ : DeploymentStrategy).Type_ = RollingUpdateDeploymentStrategyType) ∧
    ((⟨"RollingUpdate", some {}⟩ : DaemonSetUpdateStrategy).RollingUpdate ≠ none ↔
      (⟨"RollingUpdate", some {}⟩ : DaemonSetUpdateStrategy).Type_ =
        RollingUpdateDaemonSetStrategyType) :=
  ⟨demoContinue_intnInRange, by decide, by decide,
    ((strategy_type_iff_rollingUpdate demoContinue).1 ⟨"junk", some {}⟩ [0]).2
      demoContinue_intnInRange,
    (((strategy_type_iff_rollingUpdate demoContinue).1 ⟨"junk", some {}⟩ [0]).1
      ⟨"Recreate", none⟩ [] (by decide)).2,
    (((strategy_type_iff_rollingUpdate demoContinue).2 ⟨"junk", none⟩ [0, 0]).1
      ⟨"RollingUpdate", some {}⟩ [] (by decide)).2⟩

/-- C2: for every input instance, every generic filler and every randomness source, the result
of the `DeploymentSpec` rule has both `RevisionHistoryLimit` and `ProgressDeadlineSeconds`
non-nil, and the result of the `DaemonSetSpec` rule has `RevisionHistoryLimit` non-nil. -/
theorem spec_optional_integers_non_nil (c : Continue K) :
    (∀ (spec : K.DeploymentSpec) (s : K.Source),
      (fuzzDeploymentSpec c spec s).1.RevisionHistoryLimit ≠ none ∧
      (fuzzDeploymentSpec c spec s).1.ProgressDeadlineSeconds ≠ none) ∧
    (∀ (spec : K.DaemonSetSpec) (s : K.Source),
      (fuzzDaemonSetSpec c spec s).1.RevisionHistoryLimit ≠ none) := by
  constructor
  · intro spec s
    unfold fuzzDeploymentSpec
    generalize c.FillDeploymentSpec spec s = filled
    obtain ⟨⟨rhl, pds, other⟩, s1⟩ := filled
    cases rhl <;> cases pds <;> simp [int32Ptr]
  · intro spec s
    unfold fuzzDaemonSetSpec
    generalize c.FillDaemonSetSpec spec s = filled
    obtain ⟨⟨rhl, other⟩, s1⟩ := filled
    cases rhl <;> simp [int32Ptr]

/-- C3: in both strategy rules, when the index drawn selects `RollingUpdate` and the
representation coin is false with drawn integer `n ≥ 0`, the rule returns with `Type`
`RollingUpdate` and a non-nil `RollingUpdate` whose `MaxSurge` is the string representation of
the decimal numeral of `n` followed by one `%` (digits only, no sign, no padding) and whose
`MaxUnavailable` is the zero value; for `n = 42` the string is `42%`. In the daemon set rule the
leading coin is true. -/
theorem percentage_branch_maxSurge (c : Continue K) :
    (∀ (strategy : DeploymentStrategy) (s : K.Source) (n : Int),
      index deploymentStrategyTypes (c.Intn 2 (c.FillDeploymentStrategy strategy s).2).1 =
        some RollingUpdateDeploymentStrategyType →
      (c.Bool (c.Intn 2 (c.FillDeploymentStrategy strategy s).2).2).1 = false →
      (c.Int31 (c.Bool (c.Intn 2 (c.FillDeploymentStrategy strategy s).2).2).2).1 = n →
      0 ≤ n →
      ∃ r ru, fuzzDeploymentStrategy c strategy s = some (r,
          (c.Int31 (c.Bool (c.Intn 2 (c.FillDeploymentStrategy strategy s).2).2).2).2) ∧
        r.Type_ = RollingUpdateDeploymentStrategyType ∧ r.RollingUpdate = some ru ∧
        ru.MaxSurge = ⟨IntstrType.String, 0, Nat.repr n.toNat ++ "%"⟩ ∧
        IsPercentOf n.toNat ru.MaxSurge.StrVal ∧
        ru.MaxUnavailable = ⟨IntstrType.Int, 0, ""⟩) ∧
    (∀ (strategy : DaemonSetUpdateStrategy) (s : K.Source) (n : Int),
      index daemonSetUpdateStrategyTypes
          (c.Intn 2 (c.FillDaemonSetUpdateStrategy strategy s).2).1 =
        some RollingUpdateDaemonSetStrategyType →
      (c.Bool (c.Intn 2 (c.FillDaemonSetUpdateStrategy strategy s).2).2).1 = true →
      (c.Bool (c.Bool (c.Intn 2
        (c.FillDaemonSetUpdateStrategy strategy s).2).2).2).1 = false →
      (c.Int31 (c.Bool (c.Bool (c.Intn 2
        (c.FillDaemonSetUpdateStrategy strategy s).2).2).2).2).1 = n →
      0 ≤ n →
      ∃ r ru, fuzzDaemonSetUpdateStrategy c strategy s = some (r,
          (c.Int31 (c.Bool (c.Bool (c.Intn 2
            (c.FillDaemonSetUpdateStrategy strategy s).2).2).2).2).2) ∧
        r.Type_ = RollingUpdateDaemonSetStrategyType ∧ r.RollingUpdate = some ru ∧
        ru.MaxSurge = ⟨IntstrType.String, 0, Nat.repr n.toNat ++ "%"⟩ ∧
        IsPercentOf n.toNat ru.MaxSurge.StrVal ∧
        ru.MaxUnavailable = ⟨IntstrType.Int, 0, ""⟩) ∧
    Sprintf_d_pct 42 = "42%" := by
  refine ⟨?_, ?_, by decide⟩
  · intro strategy s n hsel hcoin hdraw hn
    have h1 : (c.Intn 2 (c.FillDeploymentStrategy strategy s).2).1 = 1 := by
      rw [index_deploymentStrategyTypes] at hsel
      split_ifs at hsel with h0 h1
      · exact absurd (Option.some.inj hsel) recreate_ne_rollingUpdate
      · exact h1
    have h0 : ¬ (c.Intn 2 (c.FillDeploymentStrategy strategy s).2).1 = 0 := by omega
    obtain ⟨m, rfl⟩ := Int.eq_ofNat_of_zero_le hn
    have hp := Sprintf_d_pct_isPercentOf (m : Int) hn
    refine ⟨⟨RollingUpdateDeploymentStrategyType,
        some ⟨{}, FromString (Sprintf_d_pct (m : Int))⟩⟩,
      ⟨{}, FromString (Sprintf_d_pct (m : Int))⟩, ?_, rfl, rfl, rfl, hp, rfl⟩
    rw [fuzzDeploymentStrategy_eq, if_neg h0, if_pos h1, hcoin, hdraw]
    rfl
  · intro strategy s n hsel houter hcoin hdraw hn
    have h0 : (c.Intn 2 (c.FillDaemonSetUpdateStrategy strategy s).2).1 = 0 := by
      rw [index_daemonSetUpdateStrategyTypes] at hsel
      split_ifs at hsel with h0 h1
      · exact h0
      · exact absurd (Option.some.inj hsel) onDelete_ne_rollingUpdate
    obtain ⟨m, rfl⟩ := Int.eq_ofNat_of_zero_le hn
    have hp := Sprintf_d_pct_isPercentOf (m : Int) hn
    refine ⟨⟨RollingUpdateDaemonSetStrategyType,
        some ⟨{}, FromString (Sprintf_d_pct (m : Int))⟩⟩,
      ⟨{}, FromString (Sprintf_d_pct (m : Int))⟩, ?_, rfl, rfl, rfl, hp, rfl⟩
    rw [fuzzDaemonSetUpdateStrategy_eq, if_pos h0, houter, hcoin, hdraw]
    rfl

/-- Witness of C3: on the tape `[1, 0, 42]` (index 1, coin false, integer 42) the deployment
rule yields `MaxSurge = "42%"`, `MaxUnavailable` zero-valued and `RollingUpdate` non-nil. -/
theorem percentage_branch_maxSurge_witness :
    fuzzDeploymentStrategy demoContinue ⟨"junk", none⟩ [1, 0, 42] =
      some (⟨"RollingUpdate", some ⟨⟨IntstrType.Int, 0, ""⟩, ⟨IntstrType.String, 0, "42%"⟩⟩⟩,
        []) ∧
    ∃ r ru, fuzzDeploymentStrategy demoContinue ⟨"junk", none⟩ [1, 0, 42] = some (r, []) ∧
      r.Type_ = RollingUpdateDeploymentStrategyType ∧ r.RollingUpdate = some ru ∧
      ru.MaxSurge = ⟨IntstrType.String, 0, Nat.repr (42 : Int).toNat ++ "%"⟩ ∧
      IsPercentOf (42 : Int).toNat ru.MaxSurge.StrVal ∧
      ru.MaxUnavailable = ⟨IntstrType.Int, 0, ""⟩ :=
  ⟨by decide,
    (percentage_branch_maxSurge demoContinue).1 ⟨"junk", none⟩ [1, 0, 42] 42
      (by decide) (by decide) (by decide) (by decide)⟩

/-- C4: in both strategy rules, when the index drawn selects `RollingUpdate` and the
representation coin is true, the rule returns a rolling-update object whose `MaxUnavailable` is
the integer representation (tag `Int`, empty string value) of the first `Int31` draw and whose
`MaxSurge` is the integer representation of the second; neither carries the string tag. In the
daemon set rule the leading coin is true. -/
theorem integer_branch_both_fields (c : Continue K) :
    (∀ (strategy : DeploymentStrategy) (s : K.Source),
      index deploymentStrategyTypes (c.Intn 2 (c.FillDeploymentStrategy strategy s).2).1 =
        some RollingUpdateDeploymentStrategyType →
      (c.Bool (c.Intn 2 (c.FillDeploymentStrategy strategy s).2).2).1 = true →
      ∃ r ru, fuzzDeploymentStrategy c strategy s = some (r,
          (c.Int31 (c.Int31 (c.Bool (c.Intn 2
            (c.FillDeploymentStrategy strategy s).2).2).2).2).2) ∧
        r.RollingUpdate = some ru ∧
        ru.MaxUnavailable = ⟨IntstrType.Int,
          (c.Int31 (c.Bool (c.Intn 2 (c.FillDeploymentStrategy strategy s).2).2).2).1, ""⟩ ∧
        ru.MaxSurge = ⟨IntstrType.Int,
          (c.Int31 (c.Int31 (c.Bool (c.Intn 2
            (c.FillDeploymentStrategy strategy s).2).2).2).2).1, ""⟩ ∧
        ru.MaxUnavailable.Type_ ≠ IntstrType.String ∧
        ru.MaxSurge.Type_ ≠ IntstrType.String) ∧
    (∀ (strategy : DaemonSetUpdateStrategy) (s : K.Source),
      index daemonSetUpdateStrategyTypes
          (c.Intn 2 (c.FillDaemonSetUpdateStrategy strategy s).2).1 =
        some RollingUpdateDaemonSetStrategyType →
      (c.Bool (c.Intn 2 (c.FillDaemonSetUpdateStrategy strategy s).2).2).1 = true →
      (c.Bool (c.Bool (c.Intn 2
        (c.FillDaemonSetUpdateStrategy strategy s).2).2).2).1 = true →
      ∃ r ru, fuzzDaemonSetUpdateStrategy c strategy s = some (r,
          (c.Int31 (c.Int31 (c.Bool (c.Bool (c.Intn 2
            (c.FillDaemonSetUpdateStrategy strategy s).2).2).2).2).2).2) ∧
        r.RollingUpdate = some ru ∧
        ru.MaxUnavailable = ⟨IntstrType.Int,
          (c.Int31 (c.Bool (c.Bool (c.Intn 2
            (c.FillDaemonSetUpdateStrategy strategy s).2).2).2).2).1, ""⟩ ∧
        ru.MaxSurge = ⟨IntstrType.Int,
          (c.Int31 (c.Int31 (c.Bool (c.Bool (c.Intn 2
            (c.FillDaemonSetUpdateStrategy strategy s).2).2).2).2).2).1, ""⟩ ∧
        ru.MaxUnavailable.Type_ ≠ IntstrType.String ∧
        ru.MaxSurge.Type_ ≠ IntstrType.String) := by
  constructor
  · intro strategy s hsel hcoin
    have h1 : (c.Intn 2 (c.FillDeploymentStrategy strategy s).2).1 = 1 := by
      rw [index_deploymentStrategyTypes] at hsel
      split_ifs at hsel with h0 h1
      · exact absurd (Option.some.inj hsel) recreate_ne_rollingUpdate
      · exact h1
    have h0 : ¬ (c.Intn 2 (c.FillDeploymentStrategy strategy s).2).1 = 0 := by omega
    refine ⟨⟨RollingUpdateDeploymentStrategyType, some
        ⟨FromInt32 (c.Int31 (c.Bool (c.Intn 2 (c.FillDeploymentStrategy strategy s).2).2).2).1,
          FromInt32 (c.Int31 (c.Int31 (c.Bool (c.Intn 2
            (c.FillDeploymentStrategy strategy s).2).2).2).2).1⟩⟩,
      ⟨FromInt32 (c.Int31 (c.Bool (c.Intn 2 (c.FillDeploymentStrategy strategy s).2).2).2).1,
        FromInt32 (c.Int31 (c.Int31 (c.Bool (c.Intn 2
          (c.FillDeploymentStrategy strategy s).2).2).2).2).1⟩,
      ?_, rfl, rfl, rfl, ?_, ?_⟩
    · rw [fuzzDeploymentStrategy_eq, if_neg h0, if_pos h1, if_pos hcoin]
    · simp [FromInt32]
    · simp [FromInt32]
  · intro strategy s hsel houter hcoin
    have h0 : (c.Intn 2 (c.FillDaemonSetUpdateStrategy strategy s).2).1 = 0 := by
      rw [index_daemonSetUpdateStrategyTypes] at hsel
      split_ifs at hsel with h0 h1
      · exact h0
      · exact absurd (Option.some.inj hsel) onDelete_ne_rollingUpdate
    refine ⟨⟨RollingUpdateDaemonSetStrategyType, some
        ⟨FromInt32 (c.Int31 (c.Bool (c.Bool (c.Intn 2
            (c.FillDaemonSetUpdateStrategy strategy s).2).2).2).2).1,
          FromInt32 (c.Int31 (c.Int31 (c.Bool (c.Bool (c.Intn 2
            (c.FillDaemonSetUpdateStrategy strategy s).2).2).2).2).2).1⟩⟩,
      ⟨FromInt32 (c.Int31 (c.Bool (c.Bool (c.Intn 2
          (c.FillDaemonSetUpdateStrategy strategy s).2).2).2).2).1,
        FromInt32 (c.Int31 (c.Int31 (c.Bool (c.Bool (c.Intn 2
          (c.FillDaemonSetUpdateStrategy strategy s).2).2).2).2).2).1⟩,
      ?_, rfl, rfl, rfl, ?_, ?_⟩
    · rw [fuzzDaemonSetUpdateStrategy_eq, if_pos h0, if_pos houter, if_pos hcoin]
    · simp [FromInt32]
    · simp [FromInt32]

/-- Witness of C4: on the tape `[0, 1, 1, 7, 9]` (index 0, leading coin true, coin true, draws
7 and 9) the daemon set rule yields `MaxUnavailable = 7` and `MaxSurge = 9`, both integers. -/
theorem integer_branch_both_fields_witness :
    fuzzDaemonSetUpdateStrategy demoContinue ⟨"junk", none⟩ [0, 1, 1, 7, 9] =
      some (⟨"RollingUpdate", some ⟨⟨IntstrType.Int, 7, ""⟩, ⟨IntstrType.Int, 9, ""⟩⟩⟩, []) ∧
    ∃ r ru, fuzzDaemonSetUpdateStrategy demoContinue ⟨"junk", none⟩ [0, 1, 1, 7, 9] =
        some (r, []) ∧
      r.RollingUpdate = some ru ∧
      ru.MaxUnavailable = ⟨IntstrType.Int, 7, ""⟩ ∧
      ru.MaxSurge = ⟨IntstrType.Int, 9, ""⟩ ∧
      ru.MaxUnavailable.Type_ ≠ IntstrType.String ∧
      ru.MaxSurge.Type_ ≠ IntstrType.String :=
  ⟨by decide,
    (integer_branch_both_fields demoContinue).2 ⟨"junk", none⟩ [0, 1, 1, 7, 9]
      (by decide) (by decide) (by decide)⟩

/-- C5: for every input instance, every generic filler, every defaulting routine and every
randomness source, the `ControllerRevision` rule hands to the defaulting routine the filler's
result with `Data` replaced by a raw extension whose `Raw` is the fixed text
`\x7b"apiVersion":"unknown.group/unknown","kind":"Something","someKey":"someValue"\x7d` and
whose `Object` is nil, whatever `Data` the filler had produced, and it draws nothing beyond what
the filler drew; when the defaulting routine leaves `Data` alone, `Data` after the rule is
exactly this value. The text is a JSON object of three members, `apiVersion`, `kind` and
`someKey`. -/
theorem controllerRevision_data_fixed (sch : Scheme K) (c : Continue K)
    (r : K.ControllerRevision) (s : K.Source) :
    fuzzControllerRevision sch c r s =
      (sch.DefaultControllerRevision
        ⟨⟨bytes controllerRevisionRaw, none⟩, (c.FillControllerRevision r s).1.other⟩,
        (c.FillControllerRevision r s).2) ∧
    ((∀ x, (sch.DefaultControllerRevision x).Data = x.Data) →
      (fuzzControllerRevision sch c r s).1.Data = ⟨bytes controllerRevisionRaw, none⟩) ∧
    bytes controllerRevisionRaw =
      [123, 34, 97, 112, 105, 86, 101, 114, 115, 105, 111, 110, 34, 58, 34, 117, 110, 107, 110,
       111, 119, 110, 46, 103, 114, 111, 117, 112, 47, 117, 110, 107, 110, 111, 119, 110, 34,
       44, 34, 107, 105, 110, 100, 34, 58, 34, 83, 111, 109, 101, 116, 104, 105, 110, 103, 34,
       44, 34, 115, 111, 109, 101, 75, 101, 121, 34, 58, 34, 115, 111, 109, 101, 86, 97, 108,
       117, 101, 34, 125] ∧
    controllerRevisionRaw = "\x7b" ++ "\"apiVersion\":" ++ "\"unknown.group/unknown\"" ++ "," ++
      "\"kind\":" ++ "\"Something\"" ++ "," ++ "\"someKey\":" ++ "\"someValue\"" ++ "\x7d" := by
  refine ⟨rfl, ?_, by decide, by decide⟩
  intro hd
  show (sch.DefaultControllerRevision _).Data = _
  rw [hd]

/-- Witness of C5: the rule run on an instance carrying a stray payload, with a defaulting
routine that leaves a controller revision alone. -/
theorem controllerRevision_data_fixed_witness :
    (∀ x, (demoScheme.DefaultControllerRevision x).Data = x.Data) ∧
    (fuzzControllerRevision demoScheme demoContinue ⟨⟨[1, 2, 3], some 4⟩, 5⟩ [6]).1.Data =
      ⟨bytes controllerRevisionRaw, none⟩ :=
  ⟨fun _ => rfl,
    (controllerRevision_data_fixed demoScheme demoContinue ⟨⟨[1, 2, 3], some 4⟩, 5⟩ [6]).2.1
      (fun _ => rfl)⟩

/-- C6: for both strategy rules and every randomness source, a result whose `Type` is
`RollingUpdate` has a rolling-update object in which each of `MaxSurge` and `MaxUnavailable`
carries exactly one of the two representations: tagged as an integer count with an empty string
value, or tagged as a string with a zero integer value, never both and never neither. -/
theorem rollingUpdate_fields_carry_exactly_one (c : Continue K) :
    (∀ (strategy : DeploymentStrategy) (s : K.Source) r s',
      fuzzDeploymentStrategy c strategy s = some (r, s') →
      r.Type_ = RollingUpdateDeploymentStrategyType →
      ∃ ru, r.RollingUpdate = some ru ∧
        CarriesExactlyOne ru.MaxSurge ∧ CarriesExactlyOne ru.MaxUnavailable) ∧
    (∀ (strategy : DaemonSetUpdateStrategy) (s : K.Source) r s',
      fuzzDaemonSetUpdateStrategy c strategy s = some (r, s') →
      r.Type_ = RollingUpdateDaemonSetStrategyType →
      ∃ ru, r.RollingUpdate = some ru ∧
        CarriesExactlyOne ru.MaxSurge ∧ CarriesExactlyOne ru.MaxUnavailable) := by
  constructor
  · intro strategy s r s' h ht
    rw [fuzzDeploymentStrategy_eq] at h
    split_ifs at h <;> simp only [Option.some.injEq, Prod.mk.injEq] at h <;>
      obtain ⟨rfl, -⟩ := h
    · exact absurd ht recreate_ne_rollingUpdate
    · exact ⟨_, rfl, by simp [CarriesExactlyOne, FromInt32],
        by simp [CarriesExactlyOne, FromInt32]⟩
    · exact ⟨_, rfl, by simp [CarriesExactlyOne, FromString],
        by simp [CarriesExactlyOne]⟩
  · intro strategy s r s' h ht
    rw [fuzzDaemonSetUpdateStrategy_eq] at h
    split_ifs at h <;> simp only [Option.some.injEq, Prod.mk.injEq] at h <;>
      obtain ⟨rfl, -⟩ := h
    · exact ⟨_, rfl, by simp [CarriesExactlyOne, FromInt32],
        by simp [CarriesExactlyOne, FromInt32]⟩
    · exact ⟨_, rfl, by simp [CarriesExactlyOne, FromString],
        by simp [CarriesExactlyOne]⟩
    · exact ⟨_, rfl, by simp [CarriesExactlyOne], by simp [CarriesExactlyOne]⟩
    · exact absurd ht onDelete_ne_rollingUpdate

/-- Witness of C6: the percentage branch of the daemon set rule on the tape `[0, 1, 0, 5]`; its
`MaxSurge` is tagged as a string with a zero integer value and its `MaxUnavailable` as an
integer with an empty string value. -/
theorem rollingUpdate_fields_carry_exactly_one_witness :
    fuzzDaemonSetUpdateStrategy demoContinue ⟨"junk", none⟩ [0, 1, 0, 5] =
      some (⟨"RollingUpdate", some ⟨⟨IntstrType.Int, 0, ""⟩, ⟨IntstrType.String, 0, "5%"⟩⟩⟩,
        []) ∧
    ∃ ru, (⟨"RollingUpdate", some ⟨⟨IntstrType.Int, 0, ""⟩, ⟨IntstrType.String, 0, "5%"⟩⟩⟩ :
        DaemonSetUpdateStrategy).RollingUpdate = some ru ∧
      CarriesExactlyOne ru.MaxSurge ∧ CarriesExactlyOne ru.MaxUnavailable :=
  ⟨by decide,
    (rollingUpdate_fields_carry_exactly_one demoContinue).2 ⟨"junk", none⟩ [0, 1, 0, 5]
      ⟨"RollingUpdate", some ⟨⟨IntstrType.Int, 0, ""⟩, ⟨IntstrType.String, 0, "5%"⟩⟩⟩ []
      (by decide) (by decide)⟩

/-- C7: in the `DaemonSetUpdateStrategy` rule, when the index drawn selects `RollingUpdate` and
the leading coin is false, the rule returns a non-nil rolling-update object with both
`MaxUnavailable` and `MaxSurge` at the zero value, and the source is left in the state right
after the leading coin (nothing further is drawn); when the leading coin is true, the rule
returns the same `MaxUnavailable`, the same `MaxSurge` and the same final state of the source as
the `DeploymentStrategy` rule does when its own type selection picks `RollingUpdate` and leaves
the source in the state that follows the leading coin. -/
theorem daemonSet_leading_coin (c : Continue K) :
    (∀ (strategy : DaemonSetUpdateStrategy) (s : K.Source),
      index daemonSetUpdateStrategyTypes
          (c.Intn 2 (c.FillDaemonSetUpdateStrategy strategy s).2).1 =
        some RollingUpdateDaemonSetStrategyType →
      (c.Bool (c.Intn 2 (c.FillDaemonSetUpdateStrategy strategy s).2).2).1 = false →
      fuzzDaemonSetUpdateStrategy c strategy s =
        some (⟨RollingUpdateDaemonSetStrategyType,
            some ⟨⟨IntstrType.Int, 0, ""⟩, ⟨IntstrType.Int, 0, ""⟩⟩⟩,
          (c.Bool (c.Intn 2 (c.FillDaemonSetUpdateStrategy strategy s).2).2).2)) ∧
    (∀ (strategy : DaemonSetUpdateStrategy) (s : K.Source)
        (strategyD : DeploymentStrategy) (sD : K.Source),
      index daemonSetUpdateStrategyTypes
          (c.Intn 2 (c.FillDaemonSetUpdateStrategy strategy s).2).1 =
        some RollingUpdateDaemonSetStrategyType →
      (c.Bool (c.Intn 2 (c.FillDaemonSetUpdateStrategy strategy s).2).2).1 = true →
      index deploymentStrategyTypes (c.Intn 2 (c.FillDeploymentStrategy strategyD sD).2).1 =
        some RollingUpdateDeploymentStrategyType →
      (c.Intn 2 (c.FillDeploymentStrategy strategyD sD).2).2 =
        (c.Bool (c.Intn 2 (c.FillDaemonSetUpdateStrategy strategy s).2).2).2 →
      ∃ r ru rD ruD sEnd,
        fuzzDaemonSetUpdateStrategy c strategy s = some (r, sEnd) ∧
        fuzzDeploymentStrategy c strategyD sD = some (rD, sEnd) ∧
        r.RollingUpdate = some ru ∧ rD.RollingUpdate = some ruD ∧
        ru.MaxUnavailable = ruD.MaxUnavailable ∧ ru.MaxSurge = ruD.MaxSurge) := by
  constructor
  · intro strategy s hsel houter
    have h0 : (c.Intn 2 (c.FillDaemonSetUpdateStrategy strategy s).2).1 = 0 := by
      rw [index_daemonSetUpdateStrategyTypes] at hsel
      split_ifs at hsel with h0 h1
      · exact h0
      · exact absurd (Option.some.inj hsel) onDelete_ne_rollingUpdate
    rw [fuzzDaemonSetUpdateStrategy_eq, if_pos h0, houter]
    rfl
  · intro strategy s strategyD sD hsel houter hselD hstate
    have h0 : (c.Intn 2 (c.FillDaemonSetUpdateStrategy strategy s).2).1 = 0 := by
      rw [index_daemonSetUpdateStrategyTypes] at hsel
      split_ifs at hsel with h0 h1
      · exact h0
      · exact absurd (Option.some.inj hsel) onDelete_ne_rollingUpdate
    have h1 : (c.Intn 2 (c.FillDeploymentStrategy strategyD sD).2).1 = 1 := by
      rw [index_deploymentStrategyTypes] at hselD
      split_ifs at hselD with h0 h1
      · exact absurd (Option.some.inj hselD) recreate_ne_rollingUpdate
      · exact h1
    have h0D : ¬ (c.Intn 2 (c.FillDeploymentStrategy strategyD sD).2).1 = 0 := by omega
    rw [fuzzDaemonSetUpdateStrategy_eq, fuzzDeploymentStrategy_eq, if_pos h0, if_pos houter,
      if_neg h0D, if_pos h1, hstate]
    by_cases hcoin :
        (c.Bool (c.Bool (c.Intn 2 (c.FillDaemonSetUpdateStrategy strategy s).2).2).2).1 = true
    · rw [if_pos hcoin, if_pos hcoin]
      exact ⟨_, _, _, _, _, rfl, rfl, rfl, rfl, rfl, rfl⟩
    · rw [if_neg hcoin, if_neg hcoin]
      exact ⟨_, _, _, _, _, rfl, rfl, rfl, rfl, rfl, rfl⟩

/-- Witness of C7: with the leading coin false (tape `[0, 0, 8]`) the draw 8 stays on the tape;
with the leading coin true (tape `[0, 1, 1, 7, 9]`) the daemon set rule builds the fields the
deployment rule builds on the tape `[1, 1, 7, 9]`. -/
theorem daemonSet_leading_coin_witness :
    fuzzDaemonSetUpdateStrategy demoContinue ⟨"junk", none⟩ [0, 0, 8] =
      some (⟨RollingUpdateDaemonSetStrategyType,
          some ⟨⟨IntstrType.Int, 0, ""⟩, ⟨IntstrType.Int, 0, ""⟩⟩⟩, [8]) ∧
    ∃ r ru rD ruD sEnd,
      fuzzDaemonSetUpdateStrategy demoContinue ⟨"junk", none⟩ [0, 1, 1, 7, 9] =
        some (r, sEnd) ∧
      fuzzDeploymentStrategy demoContinue ⟨"junk", none⟩ [1, 1, 7, 9] = some (rD, sEnd) ∧
      r.RollingUpdate = some ru ∧ rD.RollingUpdate = some ruD ∧
      ru.MaxUnavailable = ruD.MaxUnavailable ∧ ru.MaxSurge = ruD.MaxSurge :=
  ⟨(daemonSet_leading_coin demoContinue).1 ⟨"junk", none⟩ [0, 0, 8] (by decide) (by decide),
    (daemonSet_leading_coin demoContinue).2 ⟨"junk", none⟩ [0, 1, 1, 7, 9]
      ⟨"junk", none⟩ [1, 1, 7, 9] (by decide) (by decide) (by decide) (by decide)⟩

/-- C8: for every defaulting routine, generic filler, input instance and randomness source, the
result of each of the `StatefulSet`, `Deployment`, `DaemonSet` and `ReplicaSet` rules is the
defaulting routine applied to the result of the generic filler, the source being left as the
filler left it; and the `DeploymentSpec`, `DeploymentStrategy`, `DaemonSetSpec` and
`DaemonSetUpdateStrategy` entries of the rule table are the same whatever the defaulting
routine is. -/
theorem top_level_rules_default_after_fill (sch sch' : Scheme K) (c : Continue K) :
    (∀ (x : K.StatefulSet) (s : K.Source), (Funcs sch).StatefulSet c x s =
      (sch.DefaultStatefulSet (c.FillStatefulSet x s).1, (c.FillStatefulSet x s).2)) ∧
    (∀ (x : K.Deployment) (s : K.Source), (Funcs sch).Deployment c x s =
      (sch.DefaultDeployment (c.FillDeployment x s).1, (c.FillDeployment x s).2)) ∧
    (∀ (x : K.DaemonSet) (s : K.Source), (Funcs sch).DaemonSet c x s =
      (sch.DefaultDaemonSet (c.FillDaemonSet x s).1, (c.FillDaemonSet x s).2)) ∧
    (∀ (x : K.ReplicaSet) (s : K.Source), (Funcs sch).ReplicaSet c x s =
      (sch.DefaultReplicaSet (c.FillReplicaSet x s).1, (c.FillReplicaSet x s).2)) ∧
    (Funcs sch).DeploymentSpec = (Funcs sch').DeploymentSpec ∧
    (Funcs sch).DeploymentStrategy = (Funcs sch').DeploymentStrategy ∧
    (Funcs sch).DaemonSetSpec = (Funcs sch').DaemonSetSpec ∧
    (Funcs sch).DaemonSetUpdateStrategy = (Funcs sch').DaemonSetUpdateStrategy :=
  ⟨fun _ _ => rfl, fun _ _ => rfl, fun _ _ => rfl, fun _ _ => rfl, rfl, rfl, rfl, rfl⟩

/-- C9: the two type tables have two elements each, index 0 selects `Recreate` and index 1
`RollingUpdate` for `DeploymentStrategy`, index 0 selects `RollingUpdate` and index 1 `OnDelete`
for `DaemonSetUpdateStrategy`; and for a randomness source whose `Intn(n)` lies in `[0, n)` for
`n > 0`, the call `Intn(len(table))` does not panic, the index it returns hits the table, and
both strategy rules return a result for every input instance. (The other rules are total
functions in this embedding: they have no failing operation.) -/
theorem strategy_rules_never_panic (c : Continue K) (hc : c.IntnInRange) :
    deploymentStrategyTypes.length = 2 ∧ daemonSetUpdateStrategyTypes.length = 2 ∧
    index deploymentStrategyTypes 0 = some RecreateDeploymentStrategyType ∧
    index deploymentStrategyTypes 1 = some RollingUpdateDeploymentStrategyType ∧
    index daemonSetUpdateStrategyTypes 0 = some RollingUpdateDaemonSetStrategyType ∧
    index daemonSetUpdateStrategyTypes 1 = some OnDeleteDaemonSetStrategyType ∧
    (∀ s : K.Source, ∃ pick t,
      c.RandIntn (deploymentStrategyTypes.length : Int) s = some pick ∧
      index deploymentStrategyTypes pick.1 = some t) ∧
    (∀ s : K.Source, ∃ pick t,
      c.RandIntn (daemonSetUpdateStrategyTypes.length : Int) s = some pick ∧
      index daemonSetUpdateStrategyTypes pick.1 = some t) ∧
    (∀ (strategy : DeploymentStrategy) (s : K.Source),
      ∃ r s', fuzzDeploymentStrategy c strategy s = some (r, s')) ∧
    (∀ (strategy : DaemonSetUpdateStrategy) (s : K.Source),
      ∃ r s', fuzzDaemonSetUpdateStrategy c strategy s = some (r, s')) := by
  refine ⟨rfl, rfl, ?_, ?_, ?_, ?_, ?_, ?_, ?_, ?_⟩
  · rw [index_deploymentStrategyTypes]; rfl
  · rw [index_deploymentStrategyTypes]; rfl
  · rw [index_daemonSetUpdateStrategyTypes]; rfl
  · rw [index_daemonSetUpdateStrategyTypes]; rfl
  · intro s
    have hlen : ((deploymentStrategyTypes.length : Nat) : Int) = 2 := rfl
    rw [hlen]
    refine ⟨c.Intn 2 s, ?_⟩
    rcases intn_two c hc s with h | h
    · exact ⟨_, rfl, by rw [index_deploymentStrategyTypes, if_pos h]⟩
    · have h0 : ¬ (c.Intn 2 s).1 = 0 := by omega
      exact ⟨_, rfl, by rw [index_deploymentStrategyTypes, if_neg h0, if_pos h]⟩
  · intro s
    have hlen : ((daemonSetUpdateStrategyTypes.length : Nat) : Int) = 2 := rfl
    rw [hlen]
    refine ⟨c.Intn 2 s, ?_⟩
    rcases intn_two c hc s with h | h
    · exact ⟨_, rfl, by rw [index_daemonSetUpdateStrategyTypes, if_pos h]⟩
    · have h0 : ¬ (c.Intn 2 s).1 = 0 := by omega
      exact ⟨_, rfl, by rw [index_daemonSetUpdateStrategyTypes, if_neg h0, if_pos h]⟩
  · intro strategy s
    rw [fuzzDeploymentStrategy_eq]
    rcases intn_two c hc (c.FillDeploymentStrategy strategy s).2 with h | h
    · rw [if_pos h]; exact ⟨_, _, rfl⟩
    · have h0 : ¬ (c.Intn 2 (c.FillDeploymentStrategy strategy s).2).1 = 0 := by omega
      rw [if_neg h0, if_pos h]
      split_ifs <;> exact ⟨_, _, rfl⟩
  · intro strategy s
    rw [fuzzDaemonSetUpdateStrategy_eq]
    rcases intn_two c hc (c.FillDaemonSetUpdateStrategy strategy s).2 with h | h
    · rw [if_pos h]
      split_ifs <;> exact ⟨_, _, rfl⟩
    · have h0 : ¬ (c.Intn 2 (c.FillDaemonSetUpdateStrategy strategy s).2).1 = 0 := by omega
      rw [if_neg h0, if_pos h]; exact ⟨_, _, rfl⟩

/-- Witness of C9: the tape source meets the contract, so both strategy rules return on it. -/
theorem strategy_rules_never_panic_witness :
    demoContinue.IntnInRange ∧
    (∀ (strategy : DeploymentStrategy) (s : List Nat),
      ∃ r s', fuzzDeploymentStrategy demoContinue strategy s = some (r, s')) ∧
    (∀ (strategy : DaemonSetUpdateStrategy) (s : List Nat),
      ∃ r s', fuzzDaemonSetUpdateStrategy demoContinue strategy s = some (r, s')) :=
  ⟨demoContinue_intnInRange,
    (strategy_rules_never_panic demoContinue demoContinue_intnInRange).2.2.2.2.2.2.2.2.1,
    (strategy_rules_never_panic demoContinue demoContinue_intnInRange).2.2.2.2.2.2.2.2.2⟩

/-- C10: the `DeploymentSpec` and `DaemonSetSpec` rules keep every field the generic filler
produced but a nil `RevisionHistoryLimit` or `ProgressDeadlineSeconds`: a non-nil one is kept
unchanged and costs no draw, a nil one becomes a pointer to the next `Int31` draw, with
`RevisionHistoryLimit` drawing before `ProgressDeadlineSeconds`; the final state of the source
shows exactly the draws made. -/
theorem spec_rules_repair_only_nil (c : Continue K) :
    (∀ (spec : K.DeploymentSpec) (s : K.Source),
      (fuzzDeploymentSpec c spec s).1.other = (c.FillDeploymentSpec spec s).1.other ∧
      (∀ v, (c.FillDeploymentSpec spec s).1.RevisionHistoryLimit = some v →
        (fuzzDeploymentSpec c spec s).1.RevisionHistoryLimit = some v) ∧
      (∀ w, (c.FillDeploymentSpec spec s).1.ProgressDeadlineSeconds = some w →
        (fuzzDeploymentSpec c spec s).1.ProgressDeadlineSeconds = some w) ∧
      ((c.FillDeploymentSpec spec s).1.RevisionHistoryLimit = none →
        (fuzzDeploymentSpec c spec s).1.RevisionHistoryLimit =
          some (c.Int31 (c.FillDeploymentSpec spec s).2).1) ∧
      ((c.FillDeploymentSpec spec s).1.RevisionHistoryLimit = none →
        (c.FillDeploymentSpec spec s).1.ProgressDeadlineSeconds = none →
        (fuzzDeploymentSpec c spec s).1.ProgressDeadlineSeconds =
          some (c.Int31 (c.Int31 (c.FillDeploymentSpec spec s).2).2).1 ∧
        (fuzzDeploymentSpec c spec s).2 =
          (c.Int31 (c.Int31 (c.FillDeploymentSpec spec s).2).2).2) ∧
      ((c.FillDeploymentSpec spec s).1.RevisionHistoryLimit ≠ none →
        (c.FillDeploymentSpec spec s).1.ProgressDeadlineSeconds = none →
        (fuzzDeploymentSpec c spec s).1.ProgressDeadlineSeconds =
          some (c.Int31 (c.FillDeploymentSpec spec s).2).1 ∧
        (fuzzDeploymentSpec c spec s).2 = (c.Int31 (c.FillDeploymentSpec spec s).2).2) ∧
      ((c.FillDeploymentSpec spec s).1.RevisionHistoryLimit = none →
        (c.FillDeploymentSpec spec s).1.ProgressDeadlineSeconds ≠ none →
        (fuzzDeploymentSpec c spec s).2 = (c.Int31 (c.FillDeploymentSpec spec s).2).2) ∧
      ((c.FillDeploymentSpec spec s).1.RevisionHistoryLimit ≠ none →
        (c.FillDeploymentSpec spec s).1.ProgressDeadlineSeconds ≠ none →
        fuzzDeploymentSpec c spec s = c.FillDeploymentSpec spec s)) ∧
    (∀ (spec : K.DaemonSetSpec) (s : K.Source),
      (fuzzDaemonSetSpec c spec s).1.other = (c.FillDaemonSetSpec spec s).1.other ∧
      ((c.FillDaemonSetSpec spec s).1.RevisionHistoryLimit = none →
        (fuzzDaemonSetSpec c spec s).1.RevisionHistoryLimit =
          some (c.Int31 (c.FillDaemonSetSpec spec s).2).1 ∧
        (fuzzDaemonSetSpec c spec s).2 = (c.Int31 (c.FillDaemonSetSpec spec s).2).2) ∧
      ((c.FillDaemonSetSpec spec s).1.RevisionHistoryLimit ≠ none →
        fuzzDaemonSetSpec c spec s = c.FillDaemonSetSpec spec s)) := by
  constructor
  · intro spec s
    unfold fuzzDeploymentSpec
    generalize c.FillDeploymentSpec spec s = filled
    obtain ⟨⟨rhl, pds, other⟩, s1⟩ := filled
    cases rhl <;> cases pds <;> simp [int32Ptr]
  · intro spec s
    unfold fuzzDaemonSetSpec
    generalize c.FillDaemonSetSpec spec s = filled
    obtain ⟨⟨rhl, other⟩, s1⟩ := filled
    cases rhl <;> simp [int32Ptr]

/-- Witness of C10: a filler result with `RevisionHistoryLimit = 3` and a nil
`ProgressDeadlineSeconds`, on the tape `[11, 12]`: the 3 is kept, the deadline takes the first
draw 11, the other fields stay, and 12 is left on the tape. -/
theorem spec_rules_repair_only_nil_witness :
    fuzzDeploymentSpec demoContinue ⟨some 3, none, 77⟩ [11, 12] =
      (⟨some 3, some 11, 77⟩, [12]) ∧
    ((fuzzDeploymentSpec demoContinue ⟨some 3, none, 77⟩ [11, 12]).1.ProgressDeadlineSeconds =
        some (demoContinue.Int31
          (demoContinue.FillDeploymentSpec ⟨some 3, none, 77⟩ [11, 12]).2).1 ∧
      (fuzzDeploymentSpec demoContinue ⟨some 3, none, 77⟩ [11, 12]).2 =
        (demoContinue.Int31 (demoContinue.FillDeploymentSpec ⟨some 3, none, 77⟩ [11, 12]).2).2) :=
  ⟨by decide,
    ((spec_rules_repair_only_nil demoContinue).1 ⟨some 3, none, 77⟩ [11, 12]).2.2.2.2.2.1
      (by decide) (by decide)⟩

end AppsFuzzer
